import Mathlib

/-!
# Verification of the morphing-particle-hands engine

Shallow embedding of the particle physics core, force-field selector,
morph target store, shape sampler and gesture-distance computation of
the `morphing-particle-hands` repository, together with theorems that
settle the frozen claims about its specification.

Conventions:
* The physics core and force-field selector work on exact rationals
  (`ℚ`): the source's floating-point arithmetic is modelled exactly,
  so every algebraic identity below is about the ideal-arithmetic
  semantics of the formulas in the source.
* Each call to `Math.random()` in the source is modelled by an explicit
  parameter (a field of `RandDraws`, or a draw function `ℕ → ℝ`),
  universally quantified in the theorems; range constraints `[0, 1)`
  appear as hypotheses where a claim needs them.
* The shape sampler and the gesture pipeline use real trigonometric
  functions, so they are embedded over `ℝ`.
-/

namespace MorphParticles

/-- A 3-component vector, one particle's slot of the interleaved
`x,y,z` float buffers used by the source. -/
structure Vec3 (α : Type) where
  x : α
  y : α
  z : α
deriving DecidableEq, Repr

/-- The `Math.random()` draws consumed by one particle in one tick of
the `useFrame` loop: `jx`/`jy`/`jz` are the three fist-jitter draws
(src/App.tsx lines 227-229) and `fb` is the single burst-force draw
(line 240). -/
structure RandDraws where
  jx : ℚ
  jy : ℚ
  jz : ℚ
  fb : ℚ
deriving DecidableEq, Repr

/-- One particle's physics update, translated from the body of the
`for` loop in `ParticleSystem`'s `useFrame` (src/App.tsx lines
206-259): scale the target by the expansion factor, accumulate the
return / fist / burst accelerations into `ax,ay,az`, add them to the
velocity, multiply the velocity by the damping constant `0.90`, and
add the damped velocity to the position.  Returns
`(new position, new velocity)`. -/
def tickParticle (ef rf : ℚ) (fist burst : Bool) (rnd : RandDraws)
    (target pos vel : Vec3 ℚ) : Vec3 ℚ × Vec3 ℚ :=
  let tx := target.x * ef
  let ty := target.y * ef
  let tz := target.z * ef
  let ax := (tx - pos.x) * rf
  let ay := (ty - pos.y) * rf
  let az := (tz - pos.z) * rf
  let ax := if fist then ax - pos.x * 0.05 + (rnd.jx - 0.5) * 0.1 else ax
  let ay := if fist then ay - pos.y * 0.05 + (rnd.jy - 0.5) * 0.1 else ay
  let az := if fist then az - pos.z * 0.05 + (rnd.jz - 0.5) * 0.1 else az
  let force := 0.02 + rnd.fb * 0.01
  let ax := if burst then ax + pos.x * force else ax
  let ay := if burst then ay + pos.y * force else ay
  let az := if burst then az + pos.z * force else az
  let vx := (vel.x + ax) * 0.9
  let vy := (vel.y + ay) * 0.9
  let vz := (vel.z + az) * 0.9
  (⟨pos.x + vx, pos.y + vy, pos.z + vz⟩, ⟨vx, vy, vz⟩)

/-- Modelled from the spec (§4.3): one integration step written as the
spec describes it — net acceleration `a` is the *sum* of the
return-to-shape term, the gated fist term and the gated burst term
(absent terms contribute zero), the new velocity is
`(old velocity + a) * 0.90`, and the new position is
`old position + new velocity`.  Used to compare the source loop
against the spec's decomposition. -/
def specStep (ef rf : ℚ) (fist burst : Bool) (rnd : RandDraws)
    (target pos vel : Vec3 ℚ) : Vec3 ℚ × Vec3 ℚ :=
  let aRx := (target.x * ef - pos.x) * rf
  let aRy := (target.y * ef - pos.y) * rf
  let aRz := (target.z * ef - pos.z) * rf
  let aFx := if fist then -pos.x * 0.05 + (rnd.jx - 0.5) * 0.1 else 0
  let aFy := if fist then -pos.y * 0.05 + (rnd.jy - 0.5) * 0.1 else 0
  let aFz := if fist then -pos.z * 0.05 + (rnd.jz - 0.5) * 0.1 else 0
  let aBx := if burst then pos.x * (0.02 + rnd.fb * 0.01) else 0
  let aBy := if burst then pos.y * (0.02 + rnd.fb * 0.01) else 0
  let aBz := if burst then pos.z * (0.02 + rnd.fb * 0.01) else 0
  let ax := aRx + aFx + aBx
  let ay := aRy + aFy + aBy
  let az := aRz + aFz + aBz
  let vx := (vel.x + ax) * 0.9
  let vy := (vel.y + ay) * 0.9
  let vz := (vel.z + az) * 0.9
  (⟨pos.x + vx, pos.y + vy, pos.z + vz⟩, ⟨vx, vy, vz⟩)

/-- The sequentially-written accumulation of the source loop equals the
spec's sum-of-gated-terms decomposition, for every gate combination. -/
lemma tickParticle_eq_specStep (ef rf : ℚ) (fist burst : Bool) (rnd : RandDraws)
    (target pos vel : Vec3 ℚ) :
    tickParticle ef rf fist burst rnd target pos vel =
      specStep ef rf fist burst rnd target pos vel := by
  cases fist <;> cases burst <;>
    simp only [tickParticle, specStep, if_true, if_false, Bool.false_eq_true,
      reduceIte, Prod.mk.injEq, Vec3.mk.injEq] <;>
    refine ⟨⟨by ring, by ring, by ring⟩, by ring, by ring, by ring⟩

/-- C1: one tick of the physics core computes, per particle and
component-wise, the net acceleration as the sum of the return term
`(target * expansionFactor - position) * returnForce` plus the gated
fist and burst terms, then sets the new velocity to
`(old velocity + a) * 0.90` (damping after the acceleration is added),
then the new position to `old position + new velocity`. -/
theorem C1_tick_decomposition (ef rf : ℚ) (fist burst : Bool) (rnd : RandDraws)
    (target pos vel : Vec3 ℚ) :
    tickParticle ef rf fist burst rnd target pos vel =
      specStep ef rf fist burst rnd target pos vel :=
  tickParticle_eq_specStep ef rf fist burst rnd target pos vel

/-! ## Force-field selector (src/App.tsx lines 156-204) -/

/-- The gesture snapshot consumed each tick, translated from
`HandData` in src/types.ts. -/
structure HandData (α : Type) where
  isTracking : Bool
  distance : α
  isFist : Bool
  center : α × α
  rotation : α × α

/-- The burst gate, translated from src/App.tsx line 170:
`const isBurst = distance > 0.85;`.  Note that the source does *not*
consult `isTracking` here. -/
def burstGate {α : Type} [LinearOrderedField α] (distance : α) : Bool :=
  decide (distance > 0.85)

/-- The expansion factor, translated from src/App.tsx line 188:
`isTracking && !isBurst ? 0.5 + (distance * 1.5) : breathing`.
The already-computed `breathing` value (line 186) is passed in. -/
def expansionFactor {α : Type} [LinearOrderedField α]
    (tracking : Bool) (distance breathing : α) : α :=
  if tracking && !burstGate distance then 0.5 + distance * 1.5 else breathing

/-- The return-force strength, translated from src/App.tsx lines
197 and 202-204: base constant `0.03`, set to `0` during a burst. -/
def returnForceOf {α : Type} [LinearOrderedField α] (distance : α) : α :=
  if burstGate distance then 0 else 0.03

/-- One particle's update for a whole frame: derive the tick
parameters from the latest `HandData` exactly as `useFrame` does
(src/App.tsx lines 156-204) and run the physics step.  `breathing`
is the value `Math.sin(time * 0.5) * 0.1 + 1` computed at line 186. -/
def frameTick (h : HandData ℚ) (breathing : ℚ) (rnd : RandDraws)
    (target pos vel : Vec3 ℚ) : Vec3 ℚ × Vec3 ℚ :=
  tickParticle (expansionFactor h.isTracking h.distance breathing)
    (returnForceOf h.distance) h.isFist (burstGate h.distance) rnd target pos vel

/-- The breathing value, translated from src/App.tsx line 186:
`const breathing = Math.sin(time * 0.5) * 0.1 + 1;`. -/
noncomputable def breathingAt (time : ℝ) : ℝ :=
  Real.sin (time * 0.5) * 0.1 + 1

/-- C2 counterexample: a concrete tick with `isTracking = false` and
`distance = 0.9` in which the burst force *is* applied — the burst
gate of the source is `distance > 0.85` alone, so a non-tracking
snapshot with large `distance` still bursts.  With target `0`,
position `(1,0,0)`, velocity `0` and all random draws `0`, the tick
leaves velocity `x = (1 * 0.02) * 0.9 = 9/500 > 0` (outward burst
acceleration), while under the claim no force would act apart from
the return spring, which would give velocity `x = -27/1000 < 0`. -/
theorem C2_counterexample :
    (⟨false, 9/10, false, (1/2, 1/2), (0, 0)⟩ : HandData ℚ).isTracking = false ∧
    burstGate ((9 : ℚ)/10) = true ∧
    (frameTick ⟨false, 9/10, false, (1/2, 1/2), (0, 0)⟩ 1 ⟨0, 0, 0, 0⟩
      ⟨0, 0, 0⟩ ⟨1, 0, 0⟩ ⟨0, 0, 0⟩).2.x = 9/500 := by
  have hb : burstGate ((9 : ℚ)/10) = true := by
    simp only [burstGate, decide_eq_true_eq]
    norm_num
  refine ⟨rfl, hb, ?_⟩
  simp only [frameTick, expansionFactor, returnForceOf, hb]
  norm_num [tickParticle]

/-- C2 (amended): the burst force is applied iff `distance > 0.85`
and the fist force iff `isFist`, with `isTracking` playing no role in
either gate (it only selects the expansion factor): every frame tick
is the spec-form step whose burst gate is exactly
`decide (distance > 0.85)` and whose fist gate is exactly `isFist`. -/
theorem C2_gating_amended (h : HandData ℚ) (breathing : ℚ) (rnd : RandDraws)
    (target pos vel : Vec3 ℚ) :
    frameTick h breathing rnd target pos vel =
      specStep (expansionFactor h.isTracking h.distance breathing)
        (if h.distance > 0.85 then 0 else 0.03)
        h.isFist (decide (h.distance > 0.85)) rnd target pos vel := by
  have h1 : returnForceOf h.distance = (if h.distance > 0.85 then (0 : ℚ) else 0.03) := by
    simp only [returnForceOf, burstGate]
    by_cases hd : h.distance > 0.85 <;> simp [hd]
  calc frameTick h breathing rnd target pos vel
      = specStep (expansionFactor h.isTracking h.distance breathing)
          (returnForceOf h.distance) h.isFist (burstGate h.distance)
          rnd target pos vel :=
        tickParticle_eq_specStep _ _ _ _ _ _ _ _
    _ = _ := by rw [h1]; rfl

/-- C3: the expansion factor equals `0.5 + distance * 1.5` (and lies
in `[0.5, 2]` for `distance ∈ [0, 1]`) when tracking and not
bursting, and otherwise equals the ambient breathing value
`sin(time * 0.5) * 0.1 + 1`. -/
theorem C3_expansion_factor (tracking : Bool) (distance time : ℝ) :
    (tracking = true → distance ≤ 0.85 →
      expansionFactor tracking distance (breathingAt time) = 0.5 + distance * 1.5 ∧
      (0 ≤ distance → distance ≤ 1 →
        0.5 ≤ expansionFactor tracking distance (breathingAt time) ∧
        expansionFactor tracking distance (breathingAt time) ≤ 2)) ∧
    ((tracking = false ∨ distance > 0.85) →
      expansionFactor tracking distance (breathingAt time) =
        Real.sin (time * 0.5) * 0.1 + 1) := by
  constructor
  · intro ht hd
    have hb : burstGate distance = false := by
      simp [burstGate, not_lt.mpr hd]
    have he : expansionFactor tracking distance (breathingAt time) =
        0.5 + distance * 1.5 := by
      simp [expansionFactor, ht, hb]
    refine ⟨he, fun h0 h1 => ?_⟩
    rw [he]
    constructor <;> nlinarith
  · rintro (ht | hd)
    · simp [expansionFactor, ht, breathingAt]
    · have hb : burstGate distance = true := by
        simp [burstGate, hd]
      simp [expansionFactor, hb, breathingAt]

/-- Witness for C3 at `tracking = true`, `distance = 0.3`,
`time = 0`. -/
theorem C3_expansion_factor_witness :
    expansionFactor true (0.3 : ℝ) (breathingAt 0) = 0.5 + 0.3 * 1.5 ∧
    expansionFactor false (0.3 : ℝ) (breathingAt 0) =
      Real.sin (0 * 0.5) * 0.1 + 1 :=
  ⟨((C3_expansion_factor true 0.3 0).1 rfl (by norm_num)).1,
   (C3_expansion_factor false 0.3 0).2 (Or.inl rfl)⟩

/-! ## Morph target store (src/App.tsx lines 126-143) -/

/-- The three per-particle buffers held by `ParticleSystem`:
`targetPositionsRef`, `currentPositionsRef` and `velocitiesRef`
(src/App.tsx lines 126-130), with each particle's three floats
grouped into a `Vec3`. -/
structure SysState (α : Type) where
  target : List (Vec3 α)
  current : List (Vec3 α)
  velocity : List (Vec3 α)
deriving DecidableEq

/-- A shape change, translated from the `useEffect` on `[targetShape]`
(src/App.tsx lines 135-143): the freshly sampled positions overwrite
the target buffer, and the current-position buffer is overwritten too
when (and only when) every one of its floats is exactly `0`
(`currentPositionsRef.current.every(v => v === 0)`); the velocity
buffer is untouched. -/
def setShape {α : Type} [Zero α] [DecidableEq α]
    (newPositions : List (Vec3 α)) (s : SysState α) : SysState α :=
  { target := newPositions
    current :=
      if s.current.all (fun p => p.x = 0 && p.y = 0 && p.z = 0)
      then newPositions else s.current
    velocity := s.velocity }

/-- C4: the cold-start snap condition of the source is "every current
position float is exactly zero", not "this is the first shape
assignment".  At construction the buffers are all zero, so the first
`setShape` does snap `position` to `target` with velocity untouched at
zero — but a *second* `setShape` snaps again whenever the current
positions are still exactly zero (here: the first sampled shape was
the all-zero point set), overwriting the position buffer, contrary to
the claim that only the target buffer changes after the first
assignment.  The second component below shows the position buffer
changing from `[(0,0,0)]` to `[(1,2,3)]` on the second call. -/
theorem C4_resnap_on_zero_positions :
    SysState.current
        (setShape [⟨0, 0, 0⟩]
          (⟨[⟨0, 0, 0⟩], [⟨0, 0, 0⟩], [⟨0, 0, 0⟩]⟩ : SysState ℚ)) = [⟨0, 0, 0⟩] ∧
    SysState.current
        (setShape [⟨1, 2, 3⟩]
          (setShape [⟨0, 0, 0⟩]
            (⟨[⟨0, 0, 0⟩], [⟨0, 0, 0⟩], [⟨0, 0, 0⟩]⟩ : SysState ℚ))) = [⟨1, 2, 3⟩] ∧
    SysState.velocity
        (setShape [⟨1, 2, 3⟩]
          (setShape [⟨0, 0, 0⟩]
            (⟨[⟨0, 0, 0⟩], [⟨0, 0, 0⟩], [⟨0, 0, 0⟩]⟩ : SysState ℚ))) = [⟨0, 0, 0⟩] := by
  refine ⟨by decide, by decide, by decide⟩

/-! ## Iterated ticks and damping stability (C7) -/

/-- The per-tick parameters of one invocation of the `useFrame` loop,
as they reach a single particle: expansion factor, return-force
strength, the two force gates, the particle's random draws and its
assigned target. -/
structure TickEnv where
  ef : ℚ
  rf : ℚ
  fist : Bool
  burst : Bool
  rnd : RandDraws
  target : Vec3 ℚ

/-- `n` successive physics ticks of one particle, with possibly
different tick parameters each frame. -/
def runTicks (env : ℕ → TickEnv) (p v : Vec3 ℚ) : ℕ → Vec3 ℚ × Vec3 ℚ
  | 0 => (p, v)
  | n + 1 =>
      let s := runTicks env p v n
      tickParticle (env n).ef (env n).rf (env n).fist (env n).burst
        (env n).rnd (env n).target s.1 s.2

/-- With zero return force and both gates off, one tick is exactly
`v' = v * 0.9`, `p' = p + v'`. -/
lemma tickParticle_free (ef : ℚ) (rnd : RandDraws) (target pos vel : Vec3 ℚ) :
    tickParticle ef 0 false false rnd target pos vel =
      (⟨pos.x + vel.x * 0.9, pos.y + vel.y * 0.9, pos.z + vel.z * 0.9⟩,
       ⟨vel.x * 0.9, vel.y * 0.9, vel.z * 0.9⟩) := by
  simp only [tickParticle, Bool.false_eq_true, reduceIte, Prod.mk.injEq, Vec3.mk.injEq]
  refine ⟨⟨by ring, by ring, by ring⟩, by ring, by ring, by ring⟩

/-- Closed forms for force-free runs: velocity decays geometrically at
rate `9/10` per tick and position is a partial geometric sum. -/
lemma runTicks_free_closed (env : ℕ → TickEnv) (p v : Vec3 ℚ)
    (h : ∀ k, (env k).rf = 0 ∧ (env k).fist = false ∧ (env k).burst = false) :
    ∀ n, (runTicks env p v n).2 =
        ⟨v.x * (9/10) ^ n, v.y * (9/10) ^ n, v.z * (9/10) ^ n⟩ ∧
      (runTicks env p v n).1 =
        ⟨p.x + 9 * v.x * (1 - (9/10) ^ n),
         p.y + 9 * v.y * (1 - (9/10) ^ n),
         p.z + 9 * v.z * (1 - (9/10) ^ n)⟩ := by
  intro n
  induction n with
  | zero => simp [runTicks]
  | succ n ih =>
      obtain ⟨hrf, hfist, hburst⟩ := h n
      have hstep : runTicks env p v (n + 1) =
          tickParticle (env n).ef 0 false false (env n).rnd (env n).target
            (runTicks env p v n).1 (runTicks env p v n).2 := by
        rw [runTicks, hrf, hfist, hburst]
      rw [hstep, tickParticle_free, ih.1, ih.2]
      constructor <;> simp only [Vec3.mk.injEq] <;>
        refine ⟨by ring, by ring, by ring⟩

/-- C7: with zero external forces (`returnForce = 0`, fist and burst
gates off at every tick), each tick multiplies every velocity
component by exactly `0.90`; velocity after `n` ticks is
`v * (9/10)^n` component-wise, and every position component converges
(in `ℝ`) to the finite limit `p + 9 * v`. -/
theorem C7_damping_stability (env : ℕ → TickEnv) (p v : Vec3 ℚ)
    (h : ∀ k, (env k).rf = 0 ∧ (env k).fist = false ∧ (env k).burst = false) :
    (∀ n, (runTicks env p v (n + 1)).2 =
        ⟨(runTicks env p v n).2.x * 0.9,
         (runTicks env p v n).2.y * 0.9,
         (runTicks env p v n).2.z * 0.9⟩) ∧
    (∀ n, (runTicks env p v n).2 =
        ⟨v.x * (9/10) ^ n, v.y * (9/10) ^ n, v.z * (9/10) ^ n⟩) ∧
    Filter.Tendsto (fun n => ((runTicks env p v n).1.x : ℝ))
      Filter.atTop (nhds ((p.x : ℝ) + 9 * (v.x : ℝ))) ∧
    Filter.Tendsto (fun n => ((runTicks env p v n).1.y : ℝ))
      Filter.atTop (nhds ((p.y : ℝ) + 9 * (v.y : ℝ))) ∧
    Filter.Tendsto (fun n => ((runTicks env p v n).1.z : ℝ))
      Filter.atTop (nhds ((p.z : ℝ) + 9 * (v.z : ℝ))) := by
  have closed := runTicks_free_closed env p v h
  have hpow : Filter.Tendsto (fun n : ℕ => ((9 : ℝ)/10) ^ n) Filter.atTop (nhds 0) :=
    tendsto_pow_atTop_nhds_zero_of_lt_one (by norm_num) (by norm_num)
  have hbase : ∀ (a b : ℚ),
      Filter.Tendsto (fun n : ℕ => ((a : ℝ) + 9 * (b : ℝ) * (1 - (9/10 : ℝ) ^ n)))
        Filter.atTop (nhds ((a : ℝ) + 9 * (b : ℝ))) := by
    intro a b
    have h1 : Filter.Tendsto (fun n : ℕ => (1 - (9/10 : ℝ) ^ n))
        Filter.atTop (nhds 1) := by
      have := (tendsto_const_nhds (x := (1 : ℝ)) (f := Filter.atTop (α := ℕ))).sub hpow
      simpa using this
    have h2 := ((tendsto_const_nhds
        (x := (9 : ℝ) * (b : ℝ)) (f := Filter.atTop (α := ℕ))).mul h1)
    have h3 := (tendsto_const_nhds (x := ((a : ℚ) : ℝ)) (f := Filter.atTop (α := ℕ))).add h2
    simp only [mul_one] at h2 h3
    convert h3 using 2
  refine ⟨?_, fun n => (closed n).1, ?_, ?_, ?_⟩
  · intro n
    obtain ⟨hrf, hfist, hburst⟩ := h n
    have hstep : runTicks env p v (n + 1) =
        tickParticle (env n).ef 0 false false (env n).rnd (env n).target
          (runTicks env p v n).1 (runTicks env p v n).2 := by
      rw [runTicks, hrf, hfist, hburst]
    rw [hstep, tickParticle_free]
  · have := hbase p.x v.x
    refine this.congr (fun n => ?_)
    rw [(closed n).2]
    push_cast
    ring
  · have := hbase p.y v.y
    refine this.congr (fun n => ?_)
    rw [(closed n).2]
    push_cast
    ring
  · have := hbase p.z v.z
    refine this.congr (fun n => ?_)
    rw [(closed n).2]
    push_cast
    ring

/-- The constant force-free tick environment used by the C7 witness. -/
def freeEnv : ℕ → TickEnv := fun _ => ⟨1, 0, false, false, ⟨0, 0, 0, 0⟩, ⟨0, 0, 0⟩⟩

/-- Witness for C7: from position `(1,0,0)` and velocity `(1,0,0)`
with no forces, the `x` position converges to `1 + 9 = 10` and the
velocity after one tick is `0.9`. -/
theorem C7_damping_stability_witness :
    (runTicks freeEnv ⟨1, 0, 0⟩ ⟨1, 0, 0⟩ 1).2 = ⟨(1 : ℚ) * 0.9, 0 * 0.9, 0 * 0.9⟩ ∧
    Filter.Tendsto (fun n => ((runTicks freeEnv ⟨1, 0, 0⟩ ⟨1, 0, 0⟩ n).1.x : ℝ))
      Filter.atTop (nhds (((1 : ℚ) : ℝ) + 9 * ((1 : ℚ) : ℝ))) := by
  have main := C7_damping_stability freeEnv ⟨1, 0, 0⟩ ⟨1, 0, 0⟩
    (fun k => ⟨rfl, rfl, rfl⟩)
  exact ⟨main.1 0, main.2.2.1⟩

/-! ## The whole-buffer loop and per-particle independence (C8) -/

/-- The `for` loop over all particles in one `useFrame` call
(src/App.tsx lines 206-265), written as sequential recursion over the
three buffers in index order, exactly as the source iterates and
writes in place.  `k` is the index of the first particle of the
remaining suffix, used to hand each particle its own random draws. -/
def particleLoop (ef rf : ℚ) (fist burst : Bool) (rnds : ℕ → RandDraws) :
    ℕ → List (Vec3 ℚ) → List (Vec3 ℚ) → List (Vec3 ℚ) →
    List (Vec3 ℚ) × List (Vec3 ℚ)
  | k, t :: ts, p :: ps, v :: vs =>
      let s := tickParticle ef rf fist burst (rnds k) t p v
      let rest := particleLoop ef rf fist burst rnds (k + 1) ts ps vs
      (s.1 :: rest.1, s.2 :: rest.2)
  | _, _, _, _ => ([], [])

/-- Element `i` of the loop's output is the physics step applied to
element `i` of each input buffer, with particle `k + i`'s draws. -/
lemma particleLoop_getElem? (ef rf : ℚ) (fist burst : Bool)
    (rnds : ℕ → RandDraws) :
    ∀ (ts ps vs : List (Vec3 ℚ)) (k i : ℕ) (t p v : Vec3 ℚ),
      ts[i]? = some t → ps[i]? = some p → vs[i]? = some v →
      (particleLoop ef rf fist burst rnds k ts ps vs).1[i]? =
        some (tickParticle ef rf fist burst (rnds (k + i)) t p v).1 ∧
      (particleLoop ef rf fist burst rnds k ts ps vs).2[i]? =
        some (tickParticle ef rf fist burst (rnds (k + i)) t p v).2 := by
  intro ts
  induction ts with
  | nil => intro ps vs k i t p v ht; simp at ht
  | cons t0 ts ih =>
      intro ps vs k i t p v ht hp hv
      match ps, vs with
      | [], _ => simp at hp
      | _ :: _, [] => simp at hv
      | p0 :: ps, v0 :: vs =>
          match i with
          | 0 =>
              simp only [List.getElem?_cons_zero, Option.some.injEq] at ht hp hv
              subst ht; subst hp; subst hv
              simp [particleLoop]
          | i + 1 =>
              simp only [List.getElem?_cons_succ] at ht hp hv
              have := ih ps vs (k + 1) i t p v ht hp hv
              simpa [particleLoop, Nat.add_assoc, Nat.add_comm 1 i] using this

/-- C8: per-particle noninterference — particle `i`'s new position and
velocity depend only on its own previous target, position and
velocity (plus the global tick parameters and its own random draws):
two runs of the loop whose buffers agree at index `i` produce the
same output at index `i`, whatever the other particles' state. -/
theorem C8_per_particle_independence (ef rf : ℚ) (fist burst : Bool)
    (rnds : ℕ → RandDraws)
    (ts ps vs ts' ps' vs' : List (Vec3 ℚ)) (i : ℕ) (t p v : Vec3 ℚ)
    (ht : ts[i]? = some t) (hp : ps[i]? = some p) (hv : vs[i]? = some v)
    (ht' : ts'[i]? = some t) (hp' : ps'[i]? = some p) (hv' : vs'[i]? = some v) :
    (particleLoop ef rf fist burst rnds 0 ts ps vs).1[i]? =
      (particleLoop ef rf fist burst rnds 0 ts' ps' vs').1[i]? ∧
    (particleLoop ef rf fist burst rnds 0 ts ps vs).2[i]? =
      (particleLoop ef rf fist burst rnds 0 ts' ps' vs').2[i]? := by
  have h1 := particleLoop_getElem? ef rf fist burst rnds ts ps vs 0 i t p v ht hp hv
  have h2 := particleLoop_getElem? ef rf fist burst rnds ts' ps' vs' 0 i t p v ht' hp' hv'
  exact ⟨h1.1.trans h2.1.symm, h1.2.trans h2.2.symm⟩

/-- Witness for C8: two runs that agree only at index `0` (the second
run has a second particle in a different state) give the same output
for particle `0`. -/
theorem C8_per_particle_independence_witness :
    (particleLoop 1 0.03 false false (fun _ => ⟨0, 0, 0, 0⟩) 0
      [⟨1, 1, 1⟩] [⟨2, 2, 2⟩] [⟨0, 0, 0⟩]).1[0]? =
    (particleLoop 1 0.03 false false (fun _ => ⟨0, 0, 0, 0⟩) 0
      [⟨1, 1, 1⟩, ⟨5, 5, 5⟩] [⟨2, 2, 2⟩, ⟨7, 7, 7⟩] [⟨0, 0, 0⟩, ⟨3, 3, 3⟩]).1[0]? :=
  (C8_per_particle_independence 1 0.03 false false (fun _ => ⟨0, 0, 0, 0⟩)
    [⟨1, 1, 1⟩] [⟨2, 2, 2⟩] [⟨0, 0, 0⟩]
    [⟨1, 1, 1⟩, ⟨5, 5, 5⟩] [⟨2, 2, 2⟩, ⟨7, 7, 7⟩] [⟨0, 0, 0⟩, ⟨3, 3, 3⟩]
    0 ⟨1, 1, 1⟩ ⟨2, 2, 2⟩ ⟨0, 0, 0⟩ rfl rfl rfl rfl rfl rfl).1

/-! ## Shape sampler (src/unnamed/part_000, `geometryService`) -/

/-- `PARTICLE_COUNT`, src/unnamed/part_000 line 4. -/
def PARTICLE_COUNT : ℕ := 15000

/-- `getRandomPointInSphere` (src/unnamed/part_000 lines 6-18), with
its three `Math.random()` draws passed as `u`, `v`, `w` in call
order: `theta = 2πu`, `phi = acos(2v - 1)`, scale `cbrt(w) * r`
(`Math.cbrt` modelled as the real power `w ^ (1/3)`, which agrees for
the nonnegative draws `Math.random()` produces). -/
noncomputable def getRandomPointInSphere (u v w r : ℝ) : Vec3 ℝ :=
  let theta := 2 * Real.pi * u
  let phi := Real.arccos (2 * v - 1)
  let radius := w ^ ((1 : ℝ)/3) * r
  ⟨radius * Real.sin phi * Real.cos theta,
   radius * Real.sin phi * Real.sin theta,
   radius * Real.cos phi⟩

/-- `THREE.Vector3.applyAxisAngle` with axis `(1,0,0)`: rotation about
the `x` axis by angle `a`. -/
noncomputable def rotateX (a : ℝ) (p : Vec3 ℝ) : Vec3 ℝ :=
  ⟨p.x, p.y * Real.cos a - p.z * Real.sin a, p.y * Real.sin a + p.z * Real.cos a⟩

/-- `THREE.Vector3.applyAxisAngle` with axis `(0,0,1)`: rotation about
the `z` axis by angle `a`. -/
noncomputable def rotateZ (a : ℝ) (p : Vec3 ℝ) : Vec3 ℝ :=
  ⟨p.x * Real.cos a - p.y * Real.sin a, p.x * Real.sin a + p.y * Real.cos a, p.z⟩

/-- One iteration of the `generateShapePositions` loop
(src/unnamed/part_000 lines 24-112): the `switch` over the shape kind
for particle `i`, with the iteration's `Math.random()` draws passed
as `rnd 0`, `rnd 1`, ... in call order.  The kind is the runtime
string value of the `ShapeType` enum (src/types.ts); the last case of
the source is `case ShapeType.CLOUD: default:`, so every string
outside the five explicitly tested ones lands in the Cloud body. -/
noncomputable def sampleShapePoint (type : String) (r : ℝ) (i : ℕ)
    (rnd : ℕ → ℝ) : Vec3 ℝ :=
  if type = "Sphere" then
    getRandomPointInSphere (rnd 0) (rnd 1) (rnd 2) r
  else if type = "Cube" then
    let size := r * 1.5
    ⟨(rnd 0 - 0.5) * size, (rnd 1 - 0.5) * size, (rnd 2 - 0.5) * size⟩
  else if type = "Heart" then
    let t := rnd 0 * Real.pi * 2
    let rv := rnd 1
    let scale := r * 0.05
    let hx := 16 * Real.sin t ^ 3
    let hy := 13 * Real.cos t - 5 * Real.cos (2 * t) -
      2 * Real.cos (3 * t) - Real.cos (4 * t)
    let hz := (rnd 2 - 0.5) * 4 * rv
    ⟨hx * rv * scale, hy * rv * scale, hz * scale⟩
  else if type = "Spiral" then
    let t := rnd 0 * 20
    let rr := t * 0.2 + 0.5
    let angle := t * 2
    ⟨rr * Real.cos angle * (r * 0.25) + (rnd 1 - 0.5) * 0.5,
     (t - 10) * 0.5 * (r * 0.25),
     rr * Real.sin angle * (r * 0.25) + (rnd 2 - 0.5) * 0.5⟩
  else if type = "Saturn" then
    if i < 7 * PARTICLE_COUNT / 10 then
      getRandomPointInSphere (rnd 0) (rnd 1) (rnd 2) (r * 0.6)
    else
      let angle := rnd 0 * Real.pi * 2
      let dist := r * 0.8 + rnd 1 * (r * 0.6)
      rotateZ (Real.pi * 0.1) (rotateX (Real.pi * 0.1)
        ⟨Real.cos angle * dist, (rnd 2 - 0.5) * 0.2, Real.sin angle * dist⟩)
  else
    let rr := r * (0.5 + rnd 0)
    let theta := rnd 1 * Real.pi * 2
    let phi := rnd 2 * Real.pi
    ⟨rr * Real.sin phi * Real.sin theta * rnd 3,
     rr * Real.cos phi * rnd 3,
     rr * Real.sin phi * Real.cos theta * rnd 3⟩

/-- `generateShapePositions` (src/unnamed/part_000 lines 20-116): one
sampled point per particle index `0, ..., PARTICLE_COUNT - 1`, in
order; `rnd i` supplies iteration `i`'s random draws.  The source's
default radius is `4`. -/
noncomputable def generateShapePositions (type : String) (radius : ℝ)
    (rnd : ℕ → ℕ → ℝ) : List (Vec3 ℝ) :=
  (List.range PARTICLE_COUNT).map (fun i => sampleShapePoint type radius i (rnd i))

/-- The flat `Float32Array` layout of a point list: `x,y,z`
interleaved, as written by lines 109-111 of src/unnamed/part_000. -/
def flattenPositions : List (Vec3 ℝ) → List ℝ
  | [] => []
  | p :: l => p.x :: p.y :: p.z :: flattenPositions l

lemma flattenPositions_length (l : List (Vec3 ℝ)) :
    (flattenPositions l).length = 3 * l.length := by
  induction l with
  | nil => simp [flattenPositions]
  | cons p l ih => simp [flattenPositions, ih]; ring

/-- C5 counterexample: requesting the unknown shape kind `"Banana"`
does not fail — the sampler returns a full `PARTICLE_COUNT`-point set,
and it is point-for-point the Cloud shape's output (the source's
`default` case shares the `ShapeType.CLOUD` body). -/
theorem C5_counterexample :
    (generateShapePositions "Banana" 4 (fun _ _ => 0)).length = PARTICLE_COUNT ∧
    sampleShapePoint "Banana" 4 0 (fun _ => 0) =
      sampleShapePoint "Cloud" 4 0 (fun _ => 0) := by
  constructor
  · simp [generateShapePositions]
  · simp [sampleShapePoint]

/-- C5 (amended): requesting a shape kind outside the five explicitly
matched identifiers does not raise any error; the `default` case of
the `switch` produces the Cloud shape's point, identically to kind
`"Cloud"`. -/
theorem C5_unknown_kind_is_cloud (type : String) (radius : ℝ) (i : ℕ)
    (rnd : ℕ → ℝ)
    (h1 : type ≠ "Sphere") (h2 : type ≠ "Cube") (h3 : type ≠ "Heart")
    (h4 : type ≠ "Spiral") (h5 : type ≠ "Saturn") :
    sampleShapePoint type radius i rnd = sampleShapePoint "Cloud" radius i rnd := by
  simp [sampleShapePoint, h1, h2, h3, h4, h5]

/-- Witness for C5 (amended) at kind `"Nebula"`. -/
theorem C5_unknown_kind_is_cloud_witness :
    sampleShapePoint "Nebula" 4 0 (fun _ => 0) =
      sampleShapePoint "Cloud" 4 0 (fun _ => 0) :=
  C5_unknown_kind_is_cloud "Nebula" 4 0 (fun _ => 0)
    (by decide) (by decide) (by decide) (by decide) (by decide)

/-- C6: after a shape change, the stored target buffer is exactly the
sampler's output — same list, element `i` equal to the `i`-th sampled
point, with no reindexing — and the sampler returns exactly
`PARTICLE_COUNT` points (`3 * PARTICLE_COUNT` floats flat). -/
theorem C6_target_mapping (type : String) (radius : ℝ) (rnd : ℕ → ℕ → ℝ)
    (s : SysState ℝ) (i : ℕ) (h : i < PARTICLE_COUNT) :
    (generateShapePositions type radius rnd).length = PARTICLE_COUNT ∧
    (flattenPositions (generateShapePositions type radius rnd)).length =
      3 * PARTICLE_COUNT ∧
    (setShape (generateShapePositions type radius rnd) s).target =
      generateShapePositions type radius rnd ∧
    (setShape (generateShapePositions type radius rnd) s).target[i]? =
      some (sampleShapePoint type radius i (rnd i)) := by
  have hlen : (generateShapePositions type radius rnd).length = PARTICLE_COUNT := by
    simp [generateShapePositions]
  refine ⟨hlen, ?_, by simp only [setShape], ?_⟩
  · rw [flattenPositions_length, hlen]
  · have ht : (setShape (generateShapePositions type radius rnd) s).target =
        generateShapePositions type radius rnd := by simp only [setShape]
    rw [ht]
    simp [generateShapePositions, List.getElem?_range, h]

/-- Witness for C6 at kind `"Sphere"`, radius `4`, index `0`, an empty
cold-start store and the all-zero draw stream. -/
theorem C6_target_mapping_witness :
    (setShape (generateShapePositions "Sphere" 4 (fun _ _ => 0))
        (⟨[], [], []⟩ : SysState ℝ)).target[0]? =
      some (sampleShapePoint "Sphere" 4 0 (fun _ => 0)) :=
  (C6_target_mapping "Sphere" 4 (fun _ _ => 0) ⟨[], [], []⟩ 0
    (by norm_num [PARTICLE_COUNT])).2.2.2

/-- The squared components of a sampled sphere point collapse to the
square of its radial scale. -/
lemma getRandomPointInSphere_sq (u v w r : ℝ) :
    (getRandomPointInSphere u v w r).x ^ 2 +
      (getRandomPointInSphere u v w r).y ^ 2 +
      (getRandomPointInSphere u v w r).z ^ 2 =
    (w ^ ((1 : ℝ)/3) * r) ^ 2 := by
  have key : ∀ rad sp cp st ct : ℝ, sp ^ 2 + cp ^ 2 = 1 → st ^ 2 + ct ^ 2 = 1 →
      (rad * sp * ct) ^ 2 + (rad * sp * st) ^ 2 + (rad * cp) ^ 2 = rad ^ 2 := by
    intro rad sp cp st ct hp ht
    have e : (rad * sp * ct) ^ 2 + (rad * sp * st) ^ 2 + (rad * cp) ^ 2
        = rad ^ 2 * (sp ^ 2 * (st ^ 2 + ct ^ 2) + cp ^ 2) := by ring
    rw [e, ht, mul_one, hp, mul_one]
  simp only [getRandomPointInSphere]
  exact key _ _ _ _ _ (Real.sin_sq_add_cos_sq _) (Real.sin_sq_add_cos_sq _)

/-- C10: every point the sampler produces for the Sphere kind lies in
the closed ball of the requested radius: its Euclidean norm is at most
`r`, provided the `cbrt` draw is in `[0, 1]` (as `Math.random()`
guarantees) and `r ≥ 0`. -/
theorem C10_sphere_points_in_ball (r : ℝ) (i : ℕ) (rnd : ℕ → ℝ)
    (hw0 : 0 ≤ rnd 2) (hw1 : rnd 2 ≤ 1) (hr : 0 ≤ r) :
    Real.sqrt ((sampleShapePoint "Sphere" r i rnd).x ^ 2 +
      (sampleShapePoint "Sphere" r i rnd).y ^ 2 +
      (sampleShapePoint "Sphere" r i rnd).z ^ 2) ≤ r := by
  have hs : sampleShapePoint "Sphere" r i rnd =
      getRandomPointInSphere (rnd 0) (rnd 1) (rnd 2) r := by
    simp [sampleShapePoint]
  rw [hs, getRandomPointInSphere_sq]
  have hrad : (0 : ℝ) ≤ rnd 2 ^ ((1 : ℝ)/3) * r :=
    mul_nonneg (Real.rpow_nonneg hw0 _) hr
  rw [Real.sqrt_sq hrad]
  have hle : rnd 2 ^ ((1 : ℝ)/3) ≤ 1 :=
    Real.rpow_le_one hw0 hw1 (by norm_num)
  calc rnd 2 ^ ((1 : ℝ)/3) * r ≤ 1 * r := by
        exact mul_le_mul_of_nonneg_right hle hr
    _ = r := one_mul r

/-- Witness for C10 at radius `4` with the all-zero draw stream. -/
theorem C10_sphere_points_in_ball_witness :
    Real.sqrt ((sampleShapePoint "Sphere" 4 0 (fun _ => 0)).x ^ 2 +
      (sampleShapePoint "Sphere" 4 0 (fun _ => 0)).y ^ 2 +
      (sampleShapePoint "Sphere" 4 0 (fun _ => 0)).z ^ 2) ≤ 4 :=
  C10_sphere_points_in_ball 4 0 (fun _ => 0)
    (by norm_num) (by norm_num) (by norm_num)

/-! ## Gesture source (src/App.tsx `HandController` renderLoop) -/

/-- The distance published each frame by `HandController`'s
`renderLoop` (src/App.tsx lines 395-448): default `0.5`; when exactly
two hands are detected, the Euclidean distance between the two
index-finger tips (landmark `8` of each hand) is remapped by
`min(max((rawDist - 0.05) / 0.6, 0), 1)`; in every other case
(no hands — not tracking — or one hand) it stays `0.5`.  A hand is
its landmark array, a function from landmark index to a 3-D point. -/
noncomputable def gestureDistance : List (ℕ → Vec3 ℝ) → ℝ
  | [h1, h2] =>
      let p1 := h1 8
      let p2 := h2 8
      let dx := p1.x - p2.x
      let dy := p1.y - p2.y
      let dz := p1.z - p2.z
      let rawDist := Real.sqrt (dx * dx + dy * dy + dz * dz)
      min (max ((rawDist - 0.05) / 0.6) 0) 1
  | _ => 0.5

/-- The tracking flag: `isTracking = true` iff at least one hand was
detected (src/App.tsx lines 398 and 402-403). -/
def gestureIsTracking (hands : List (ℕ → Vec3 ℝ)) : Bool :=
  decide (0 < hands.length)

/-- C9: every published distance lies in `[0, 1]`, and it is exactly
`0.5` whenever the spread is indeterminate — tracking lost (no hands)
or fewer than two hands detected. -/
theorem C9_distance_bounds (hands : List (ℕ → Vec3 ℝ)) :
    (0 ≤ gestureDistance hands ∧ gestureDistance hands ≤ 1) ∧
    (gestureIsTracking hands = false → gestureDistance hands = 0.5) ∧
    (hands.length < 2 → gestureDistance hands = 0.5) := by
  have hhalf : (0 : ℝ) ≤ 0.5 ∧ (0.5 : ℝ) ≤ 1 := by norm_num
  match hands with
  | [] => exact ⟨⟨hhalf.1, hhalf.2⟩, fun _ => rfl, fun _ => rfl⟩
  | [h1] => exact ⟨⟨hhalf.1, hhalf.2⟩, fun _ => rfl, fun _ => rfl⟩
  | h1 :: h2 :: h3 :: rest =>
      refine ⟨⟨hhalf.1, hhalf.2⟩, fun htr => ?_, fun hl => ?_⟩
      · simp [gestureIsTracking] at htr
      · simp at hl
        omega
  | [h1, h2] =>
      refine ⟨⟨?_, ?_⟩, fun htr => ?_, fun hl => ?_⟩
      · exact le_min (le_max_right _ 0) (by norm_num)
      · exact min_le_right _ 1
      · simp [gestureIsTracking] at htr
      · simp at hl

/-- Witness for C9 with no hands detected. -/
theorem C9_distance_bounds_witness :
    gestureDistance [] = 0.5 ∧ 0 ≤ gestureDistance ([] : List (ℕ → Vec3 ℝ)) :=
  ⟨(C9_distance_bounds []).2.2 (by norm_num), (C9_distance_bounds []).1.1⟩

end MorphParticles
